import Mathlib

/-!
Verification of the resampling-and-estimation engine of
`stylized_facts/stylized_facts_checker.py`.

The Python code operates on pandas DataFrames of rational-valued cells that
may be missing (NaN).  We embed a DataFrame as an index (a list of
time-of-day keys) together with an association list of named columns, each a
list of optional rationals (`none` models NaN).  Float arithmetic is
modelled over ℚ; the transcendental functions `log` and `sqrt` and the
scipy statistics (`kurtosis`, `kurtosistest`) are external libraries and are
passed in as function parameters — none of the verified properties depend on
their values.  Python exceptions (assert failures, IndexError, ValueError)
are modelled by `Option`/`Except` results.
-/

/-- A float cell of a pandas column: `none` models NaN (a missing value). -/
abbrev NQ := Option ℚ

/-- Model of `Series.dropna().values`: remove the missing cells, keep the order. -/
def dropna (l : List NQ) : List ℚ := l.filterMap id

/-- A pandas DataFrame: an index and named columns of optional rationals. -/
structure DataFrame where
  index : List ℚ
  cols : List (String × List NQ)
deriving DecidableEq

namespace DataFrame

/-- Model of `len(df)`: the number of rows, i.e. the length of the index. -/
def len (df : DataFrame) : ℕ := df.index.length

/-- Model of `colname in df.columns`. -/
def hasCol (df : DataFrame) (c : String) : Bool := df.cols.any (fun p => p.1 == c)

/-- Model of `df[colname]` (callers guard existence with `hasCol`; a missing column
reads as the empty column). -/
def getCol (df : DataFrame) (c : String) : List NQ :=
  match df.cols.find? (fun p => p.1 == c) with
  | some p => p.2
  | none => []

/-- Model of `df[colname].isnull().sum()`: the number of missing cells in a column. -/
def nullCount (df : DataFrame) (c : String) : ℕ := (df.getCol c).countP (·.isNone)

/-- Well-formedness: every column has exactly one cell per index entry
(always true of a real pandas DataFrame). -/
def Wf (df : DataFrame) : Prop := ∀ p ∈ df.cols, p.2.length = df.index.length

end DataFrame

/-- Model of `StylizedFactsChecker._is_stacking_possible`.  Returns `some b` for the
Python return value `b`; returns `none` when the Python code raises
IndexError (`len(dfs[0])` on an empty list).  The source checks, in order:
every df has the column (else False); all lengths equal the first df's
length (via a `count` comparison, else False); all per-column NaN counts
equal the first df's (else False); otherwise True. -/
def is_stacking_possible (dfs : List DataFrame) (colname : String) : Option Bool :=
  if dfs.any (fun df => !(df.hasCol colname)) then some false
  else
    match dfs with
    | [] => none
    | d0 :: _ =>
      if (dfs.map DataFrame.len).count d0.len ≠ dfs.length then some false
      else if (dfs.map (fun df => df.nullCount colname)).count (d0.nullCount colname) ≠
          dfs.length then some false
      else some true

/-- Model of `StylizedFactsChecker._stack_dfs`: assert stacking is possible, drop the
NaNs of each df's column and stack the rows.  `none` models the assertion
failure (or `np.stack` raising on ragged rows / an empty list). -/
def stack_dfs (dfs : List DataFrame) (colname : String) : Option (List (List ℚ)) :=
  if is_stacking_possible dfs colname = some true then
    let rows := dfs.map (fun df => dropna (df.getCol colname))
    match rows with
    | [] => none
    | r0 :: _ => if rows.all (fun r => r.length = r0.length) then some rows else none
  else none

/-- The `1e-10` constant added inside the `np.log` argument and to the
correlation denominators. -/
def eps : ℚ := 1 / 10000000000

/-- One row of returns: `np.log(p[1:] / p[:-1] + 1e-10)` for a clean price
row `p`, with `log` the (external) natural logarithm. -/
def log_returns (log : ℚ → ℚ) (p : List ℚ) : List ℚ :=
  (p.tail.zip p).map (fun q => log (q.1 / q.2 + eps))

/-- Model of `StylizedFactsChecker._calc_return_arr_from_df`: dropna the price
column, assert every price is strictly positive (`none` models the
assertion failure), and return the (1, L−1) return array. -/
def calc_return_arr_from_df (log : ℚ → ℚ) (df : DataFrame) (colname : String) :
    Option (List (List ℚ)) :=
  let p := dropna (df.getCol colname)
  if p.any (fun x => decide (x ≤ 0)) then none
  else some [log_returns log p]

/-- Model of `StylizedFactsChecker._calc_return_arr_from_dfs`: stack the price
columns, assert every price is strictly positive, and return the (N, L−1)
return array (absolute values when `is_abs`). -/
def calc_return_arr_from_dfs (log : ℚ → ℚ) (dfs : List DataFrame) (colname : String)
    (is_abs : Bool := false) : Option (List (List ℚ)) := do
  let arr ← stack_dfs dfs colname
  if arr.any (fun row => row.any (fun x => decide (x ≤ 0))) then none
  else
    let ret := arr.map (log_returns log)
    some (if is_abs then ret.map (List.map abs) else ret)

/-- The shape of a two-dimensional array: its row count and row lengths. -/
def shape2 {α : Type} (a : List (List α)) : ℕ × List ℕ := (a.length, a.map List.length)

/-- One row of a synthetic tick log: the `event_price (avg)` and
`event_volume` columns used by `_resample_art_per_session`. -/
structure TickEvent where
  price : ℚ
  volume : ℚ
deriving DecidableEq

/-- One row of the OHLCV frame built by `_resample_art_per_session`:
price fields are optional (`None` for an empty slice), volume and
num_events are always present. -/
structure OhlcvBar where
  open_ : NQ
  high : NQ
  low : NQ
  close : NQ
  volume : ℚ
  num_events : ℕ
deriving DecidableEq

/-- Model of `.astype(np.uint8)` applied to a non-negative float: truncate toward
zero, then wrap modulo 2^8 (the conversion the source applies to the scaled
cumulative transaction counts). -/
def toUint8 (q : ℚ) : ℕ := (⌊q⌋).toNat % 256

/-- Model of `df.iloc[a:b, :]` row slicing on a list: out-of-range bounds clamp and
`b ≤ a` yields the empty slice. -/
def ilocSlice {α : Type} (xs : List α) (a b : ℕ) : List α := (xs.drop a).take (b - a)

/-- Fold one slice of events into one bar, exactly as the loop body of
`_resample_art_per_session`: a non-empty slice gets open = first price,
high/low = max/min price, close = last price, volume = summed event volume,
num_events = slice length; an empty slice gets all-None prices, volume 0 and
num_events 0. -/
def barOfSlice (slice : List TickEvent) : OhlcvBar :=
  match slice with
  | [] => ⟨none, none, none, none, 0, 0⟩
  | e :: _ =>
    ⟨some e.price,
     some ((slice.map TickEvent.price).foldl max e.price),
     some ((slice.map TickEvent.price).foldl min e.price),
     some ((slice.map TickEvent.price).getLastD e.price),
     (slice.map TickEvent.volume).sum,
     slice.length⟩

/-- The bar-building loop of `_resample_art_per_session`: walk the integer
cut points, slicing the events between the previous and current cut point
(the previous cut point is updated unconditionally). -/
def mkBars (events : List TickEvent) : ℕ → List ℕ → List OhlcvBar
  | _, [] => []
  | prev, cur :: rest => barOfSlice (ilocSlice events prev cur) :: mkBars events cur rest

/-- The trailing `session_resampled_df["close"].ffill()`: forward-fill the
close column, carrying the last defined close. -/
def ffillClose : NQ → List OhlcvBar → List OhlcvBar
  | _, [] => []
  | prev, b :: rest =>
    let c := match b.close with
      | some x => some x
      | none => prev
    { b with close := c } :: ffillClose c rest

/-- Model of `StylizedFactsChecker._resample_art_per_session`, given the session's
event log and the (randomly selected, here passed explicitly) reference
curve of cumulative scaled transaction proportions: scale the curve by the
session's event count, convert to integer cut points through the
`astype(np.uint8)` cast, build one bar per cut point and forward-fill
close. -/
def resample_art_per_session (events : List TickEvent) (curve : List ℚ) : List OhlcvBar :=
  let cumsum_transactions : List ℕ := curve.map (fun q => toUint8 ((events.length : ℚ) * q))
  ffillClose none (mkBars events 0 cumsum_transactions)

/-- Model of `df.columns.str.lower()`: rename all columns through the Python
`str.lower` primitive, passed in as `lower` (like `log` and `sqrt`, a host
primitive none of the verified properties depend on). -/
def lowercaseCols (lower : String → String) (df : DataFrame) : DataFrame :=
  { df with cols := df.cols.map (fun p => (lower p.1, p.2)) }

/-- Model of `df[name] = col`: append a freshly derived column. -/
def addDerivedCol (df : DataFrame) (name : String) (col : List NQ) : DataFrame :=
  { df with cols := df.cols ++ [(name, col)] }

/-- Model of `col / col.sum()`: divide every cell by the column's (NaN-skipping)
sum; NaN cells stay NaN.  (A zero sum gives `x / 0 = 0` in ℚ where float
arithmetic would give ±inf; all verified statements assume a positive sum.) -/
def scaleCol (col : List NQ) : List NQ :=
  col.map (Option.map (fun v => v / (dropna col).sum))

/-- Model of `np.zeros(len df)` overwritten with `df[src][mask]` on the rows whose
index satisfies `keep`: the session-masked copy of a scaled column. -/
def sessionMaskCol (keep : ℚ → Bool) (df : DataFrame) (src : String) : List NQ :=
  (df.index.zip (df.getCol src)).map (fun p => if keep p.1 then p.2 else some 0)

/-- Model of `StylizedFactsChecker.preprocess_ohlcv_df`: lowercase the column names,
derive `scaled_volume` and `scaled_num_events` (each guarded by an
"already has column" check), and, when the session boundary times are known,
derive the session-masked and renormalized variants of both. -/
def preprocess_ohlcv_df (lower : String → String) (session1_end session2_start : Option ℚ)
    (df0 : DataFrame) : DataFrame :=
  let df := lowercaseCols lower df0
  let df := if df.hasCol "scaled_volume" then df
    else addDerivedCol df "scaled_volume" (scaleCol (df.getCol "volume"))
  let df := if df.hasCol "scaled_num_events" then df
    else addDerivedCol df "scaled_num_events" (scaleCol (df.getCol "num_events"))
  let df := match session1_end with
    | none => df
    | some t1 =>
      let keep1 := fun i => decide (i ≤ t1)
      let df := if df.hasCol "session1_scaled_volume" then df
        else addDerivedCol df "session1_scaled_volume"
          (scaleCol (sessionMaskCol keep1 df "scaled_volume"))
      if df.hasCol "session1_scaled_num_events" then df
      else addDerivedCol df "session1_scaled_num_events"
        (scaleCol (sessionMaskCol keep1 df "scaled_num_events"))
  match session2_start with
  | none => df
  | some t2 =>
    let keep2 := fun i => decide (t2 ≤ i)
    let df := if df.hasCol "session2_scaled_volume" then df
      else addDerivedCol df "session2_scaled_volume"
        (scaleCol (sessionMaskCol keep2 df "scaled_volume"))
    if df.hasCol "session2_scaled_num_events" then df
    else addDerivedCol df "session2_scaled_num_events"
      (scaleCol (sessionMaskCol keep2 df "scaled_num_events"))

/-- Model of `np.sort(row)` on one row of floats (numpy's sort agrees extensionally
with any comparison sort on a total order). -/
def npSortRow (row : List ℚ) : List ℚ := row.insertionSort (· ≤ ·)

/-- The two exceptions `_calc_hill_indices` can raise: the ValueError on an
array that is not ascending-sorted, and the (spec taxonomy: DataError)
ValueError on a non-positive value inside the tail region. -/
inductive HillError where
  | notSorted
  | nonPositiveTail
deriving DecidableEq

/-- Model of `int(np.floor(shape1 * (1 - cut_off_th)))`: the first index of the tail
region, where `shape1` is the common row length (the length of the first
row). -/
def hillCutStart (arr : List (List ℚ)) (cut_off_th : ℚ) : ℕ :=
  (⌊((arr.headD []).length : ℚ) * (1 - cut_off_th)⌋).toNat

/-- Model of `StylizedFactsChecker._calc_hill_indices` on an already 2-D array (the
`len(shape) == 2` assert is carried by the type).  Raise if any row differs
from its sorted copy; slice off the tail region; raise if the tail contains
a non-positive value; per row return `1 / ((1/k) Σ log(x / x_first))`.  The
final float reciprocal maps a zero denominator to `inf`; we model that
non-finite outcome as `none` (there is no ε floor here). -/
def calc_hill_indices (log : ℚ → ℚ) (arr : List (List ℚ)) (cut_off_th : ℚ) :
    Except HillError (List NQ) :=
  if arr.any (fun row => decide (row ≠ npSortRow row)) then .error .notSorted
  else
    let start := hillCutStart arr cut_off_th
    let cut := arr.map (fun row => row.drop start)
    if cut.any (fun row => row.any (fun x => decide (x ≤ 0))) then .error .nonPositiveTail
    else
      let k : ℕ := (arr.headD []).length - start
      .ok (cut.map (fun row =>
        let t := 1 / (k : ℚ) * ((row.map (fun x => log (x / row.headD 0))).sum)
        if t = 0 then none else some (1 / t)))

/-- Model of `np.mean` of a float list (the sources never take the mean of an empty
list on the verified paths). -/
def qmean (l : List ℚ) : ℚ := l.sum / l.length

/-- Model of `StylizedFactsChecker._calc_kurtosis` with the scipy statistics passed
in as `kurt` (row excess kurtosis) and `ktest` (row one-sided kurtosis-test
p-value): per row of the (N, L) return array, the (N, 1) kurtosis and
p-value arrays.  (The `len(shape) != 2` ValueError is carried by the
type.) -/
def calc_kurtosis (kurt ktest : List ℚ → ℚ) (return_arr : List (List ℚ)) :
    List (List ℚ) × List (List ℚ) :=
  (return_arr.map (fun row => [kurt row]), return_arr.map (fun row => [ktest row]))

/-- Python `.item()` on a (1, 1) array. -/
def item2 (a : List (List ℚ)) : ℚ := (a.headD []).headD 0

/-- Model of `StylizedFactsChecker.check_kurtosis` (first call: the memoized
`self.return_arr` cache is empty).  `none` models a raised exception: the
IndexError of the homogeneity check on an empty collection, or the
positive-price assert.  On the stacking path the batched return array feeds
`_calc_kurtosis` directly; on the fallback path each df is processed alone
and the scalar `.item()` results are stacked into (N, 1) columns. -/
def check_kurtosis (kurt ktest : List ℚ → ℚ) (log : ℚ → ℚ) (dfs : List DataFrame) :
    Option (List (List ℚ) × List (List ℚ)) :=
  match is_stacking_possible dfs "close" with
  | none => none
  | some true => do
    let ret ← calc_return_arr_from_dfs log dfs "close"
    some (calc_kurtosis kurt ktest ret)
  | some false => do
    let pairs ← dfs.mapM (fun df => do
      let ret ← calc_return_arr_from_df log df "close"
      let kp := calc_kurtosis kurt ktest ret
      some (item2 kp.1, item2 kp.2))
    some (pairs.map (fun p => [p.1]), pairs.map (fun p => [p.2]))

/-- Model of `StylizedFactsChecker._calc_autocorrelation` (for lags ≥ 1): per lag,
the (N, 1) array of lag-autocovariances of the absolute returns divided by
the ε-floored variance. -/
def calc_autocorrelation (abs_return_arr : List (List ℚ)) (lags : List ℕ) :
    List (ℕ × List (List ℚ)) :=
  lags.map (fun lag =>
    (lag, abs_return_arr.map (fun row =>
      let m := qmean row
      let acov := qmean (((row.drop lag).zip (row.take (row.length - lag))).map
        (fun p => (p.1 - m) * (p.2 - m)))
      let v := qmean (row.map (fun x => (x - m) ^ 2))
      [acov / (v + eps)])))

/-- Model of `StylizedFactsChecker.check_autocorrelation` (first call, empty cache):
per lag, the stacked (N, 1) autocorrelation array; on the fallback path the
per-df scalar `.item()` results are collected into (N, 1) columns. -/
def check_autocorrelation (log : ℚ → ℚ) (dfs : List DataFrame) (lags : List ℕ) :
    Option (List (ℕ × List (List ℚ))) :=
  match is_stacking_possible dfs "close" with
  | none => none
  | some true => do
    let ret ← calc_return_arr_from_dfs log dfs "close"
    some (calc_autocorrelation (ret.map (List.map abs)) lags)
  | some false => do
    let per ← dfs.mapM (fun df => do
      let ret ← calc_return_arr_from_df log df "close"
      some (calc_autocorrelation (ret.map (List.map abs)) lags))
    some (lags.map (fun lag =>
      (lag, per.map (fun d =>
        [item2 (((d.find? (fun p => p.1 == lag)).map Prod.snd).getD [])]))))

/-- Model of `StylizedFactsChecker._calc_volume_volatility_correlation` with the
(external) float square root passed in as `sqrt`: per row, the covariance of
the absolute returns and the volumes divided by the ε-floored product of
their standard deviations, keepdims shape (N, 1). -/
def calc_volume_volatility_correlation (sqrt : ℚ → ℚ)
    (abs_return_arr volume_arr : List (List ℚ)) : List (List ℚ) :=
  (abs_return_arr.zip volume_arr).map (fun rv =>
    let rm := qmean rv.1
    let vm := qmean rv.2
    let rs := sqrt (qmean (rv.1.map (fun x => (x - rm) ^ 2)))
    let vs := sqrt (qmean (rv.2.map (fun x => (x - vm) ^ 2)))
    [qmean ((rv.1.zip rv.2).map (fun p => (p.1 - rm) * (p.2 - vm))) / (rs * vs + eps)])

/-- Model of `StylizedFactsChecker.check_volume_volatility_correlation` (first call,
empty cache).  The stacking path stacks the dropna'd volume columns (whose
own stacking assert may fail) and returns the (N, 1) correlation array; the
fallback path takes each df's raw volume values from the second bar on
(NaN-propagating: a NaN volume makes the scalar NaN, modelled `none`) and
assembles the scalars as `np.array(corrs)[np.newaxis, :]` — a single row of
length N. -/
def check_volume_volatility_correlation (sqrt log : ℚ → ℚ) (dfs : List DataFrame) :
    Option (List (List NQ)) :=
  match is_stacking_possible dfs "close" with
  | none => none
  | some true => do
    let volume_arr ← stack_dfs dfs "volume"
    let volume_arr := volume_arr.map (List.drop 1)
    let ret ← calc_return_arr_from_dfs log dfs "close"
    some ((calc_volume_volatility_correlation sqrt (ret.map (List.map abs)) volume_arr).map
      (List.map some))
  | some false => do
    let corrs ← dfs.mapM (fun df => do
      let ret ← calc_return_arr_from_df log df "close"
      let vrow := (df.getCol "volume").drop 1
      let c : NQ := if vrow.any (·.isNone) then none
        else some (item2 (calc_volume_volatility_correlation sqrt
          (ret.map (List.map abs)) [dropna vrow]))
      some c)
    some [corrs]

/-! Concrete fixtures used by the witnesses and counterexamples. -/

/-- An event log of 256 identical unit events, used to exhibit the uint8
wraparound of the cut points. -/
def unitEvent : TickEvent := ⟨1, 1⟩

/-- A one-row bar sequence with a close column, for the C5 witness. -/
def dfW : DataFrame := ⟨[0], [("close", [some 1])]⟩

/-- A two-row bar sequence with close prices 1 and 2. -/
def dfA : DataFrame := ⟨[0, 1], [("close", [some 1, some 2])]⟩

/-- A two-row bar sequence with close prices 2 and 4. -/
def dfB : DataFrame := ⟨[0, 1], [("close", [some 2, some 4])]⟩

/-- An ascending-sorted return row whose tail region (the top 2/5, i.e. the
last two entries) is the strictly positive constant pair 4, 4. -/
def hillConstTailArr : List (List ℚ) := [[1, 2, 3, 4, 4]]

/-- A two-bar OHLCV frame with volumes 1 and 3, for the C8 witness. -/
def dfVol : DataFrame := ⟨[0, 1], [("volume", [some 1, some 3])]⟩

/-- A three-bar sequence with close and volume columns and no missing
values. -/
def dfC3 : DataFrame := ⟨[0, 1, 2],
  [("close", [some 1, some 2, some 3]), ("volume", [some 1, some 1, some 1])]⟩

/-- A four-bar sequence with close and volume columns and no missing
values: paired with `dfC3` it makes the homogeneity check false. -/
def dfC4 : DataFrame := ⟨[0, 1, 2, 3],
  [("close", [some 1, some 2, some 3, some 4]),
   ("volume", [some 1, some 1, some 1, some 1])]⟩

/-! Theorems. -/

theorem ffillClose_length (prev : NQ) (bars : List OhlcvBar) :
    (ffillClose prev bars).length = bars.length := by
  induction bars generalizing prev with
  | nil => rfl
  | cons b rest ih => simp [ffillClose, ih]

theorem mkBars_length (events : List TickEvent) (prev : ℕ) (cuts : List ℕ) :
    (mkBars events prev cuts).length = cuts.length := by
  induction cuts generalizing prev with
  | nil => rfl
  | cons c rest ih => simp [mkBars, ih]

/-- C7: for every per-session event log, transaction-count (synthetic)
resampling produces exactly one bar per entry of the selected reference
curve, so the number of output bars equals the length of the reference
curve regardless of the session's event count. -/
theorem resample_art_bar_count (events : List TickEvent) (curve : List ℚ) :
    (resample_art_per_session events curve).length = curve.length := by
  simp [resample_art_per_session, ffillClose_length, mkBars_length]

/-- C10: the batch homogeneity check requires a non-empty collection: on
zero bar sequences it raises (IndexError, modelled `none`) instead of
returning a boolean, and every public check_* estimator therefore fails on
an empty collection. -/
theorem stacking_check_needs_nonempty (c : String) (kurt ktest : List ℚ → ℚ)
    (log sqrt : ℚ → ℚ) (lags : List ℕ) :
    is_stacking_possible [] c = none ∧
    check_kurtosis kurt ktest log [] = none ∧
    check_autocorrelation log [] lags = none ∧
    check_volume_volatility_correlation sqrt log [] = none := by
  refine ⟨rfl, ?_, ?_, ?_⟩ <;>
    simp [check_kurtosis, check_autocorrelation, check_volume_volatility_correlation,
      is_stacking_possible]


/-- C1 (code bug): allocation is not exhaustive.  On a session of 256
events and a reference curve reaching exactly 1, the `astype(np.uint8)`
cast wraps the final cut point 256 to 0, so every produced bar is empty and
the bars' num_events sum to 0, not to the session's 256 events. -/
theorem resample_drops_events_on_uint8_wraparound :
    (List.replicate 256 unitEvent).length = 256 ∧
    ((resample_art_per_session (List.replicate 256 unitEvent) [1]).map
      OhlcvBar.num_events).sum = 0 := by
  constructor
  · exact List.length_replicate 256 unitEvent
  · have hlen : ((List.replicate 256 unitEvent).length : ℚ) = 256 := by
      rw [List.length_replicate]; norm_num
    generalize List.replicate 256 unitEvent = events at hlen ⊢
    have hcut : toUint8 ((256 : ℚ) * 1) = 0 := by
      unfold toUint8; norm_num; decide
    simp only [resample_art_per_session, List.map_cons, List.map_nil, hlen, hcut]
    simp [mkBars, ilocSlice, barOfSlice, ffillClose]

theorem pairwise_eq_iff_eq_head (f : DataFrame → ℕ) (d0 : DataFrame)
    (rest : List DataFrame) :
    (∀ d1 ∈ d0 :: rest, ∀ d2 ∈ d0 :: rest, f d1 = f d2) ↔
      (∀ df ∈ d0 :: rest, f d0 = f df) := by
  constructor
  · intro h df hdf
    exact h d0 (List.mem_cons_self d0 rest) df hdf
  · intro h d1 h1 d2 h2
    exact (h d1 h1).symm.trans (h d2 h2)

/-- C5: on a non-empty collection, the batch homogeneity check returns true
iff the column exists in all sequences, all sequences have equal length, and
all sequences have an equal count of missing values in that column. -/
theorem is_stacking_possible_true_iff (dfs : List DataFrame) (c : String)
    (h : dfs ≠ []) :
    is_stacking_possible dfs c = some true ↔
      ((∀ df ∈ dfs, df.hasCol c = true) ∧
       (∀ d1 ∈ dfs, ∀ d2 ∈ dfs, d1.len = d2.len) ∧
       (∀ d1 ∈ dfs, ∀ d2 ∈ dfs, d1.nullCount c = d2.nullCount c)) := by
  obtain ⟨d0, rest, rfl⟩ : ∃ d t, dfs = d :: t := by
    cases dfs with
    | nil => exact absurd rfl h
    | cons a l => exact ⟨a, l, rfl⟩
  have key : is_stacking_possible (d0 :: rest) c = some true ↔
      (((d0 :: rest).any (fun df => !(df.hasCol c)) = false) ∧
       ((d0 :: rest).map DataFrame.len).count d0.len = (d0 :: rest).length ∧
       ((d0 :: rest).map (fun df => df.nullCount c)).count (d0.nullCount c) =
         (d0 :: rest).length) := by
    simp only [is_stacking_possible]
    split_ifs with h1 h2 h3
    · constructor
      · intro hx; simp at hx
      · rintro ⟨hfalse, -, -⟩
        rw [h1] at hfalse
        simp at hfalse
    · constructor
      · intro hx; simp at hx
      · rintro ⟨-, hc1, -⟩
        exact absurd hc1 h2
    · constructor
      · intro hx; simp at hx
      · rintro ⟨-, -, hc2⟩
        exact absurd hc2 h3
    · have h1' : ((d0 :: rest).any fun df => !df.hasCol c) = false := by
        revert h1
        cases ((d0 :: rest).any fun df => !df.hasCol c) <;> simp
      constructor
      · intro _
        exact ⟨h1', not_ne_iff.mp h2, not_ne_iff.mp h3⟩
      · intro _
        rfl
  have hAny : ((d0 :: rest).any (fun df => !(df.hasCol c)) = false) ↔
      (∀ df ∈ d0 :: rest, df.hasCol c = true) := by
    simp
  have hcount1 : ((d0 :: rest).map DataFrame.len).count d0.len = (d0 :: rest).length ↔
      (∀ df ∈ d0 :: rest, d0.len = df.len) := by
    rw [show (d0 :: rest).length = ((d0 :: rest).map DataFrame.len).length from
      (List.length_map _ _).symm, List.count_eq_length]
    simp
  have hcount2 : ((d0 :: rest).map (fun df => df.nullCount c)).count (d0.nullCount c) =
      (d0 :: rest).length ↔ (∀ df ∈ d0 :: rest, d0.nullCount c = df.nullCount c) := by
    rw [show (d0 :: rest).length = ((d0 :: rest).map (fun df => df.nullCount c)).length from
      (List.length_map _ _).symm, List.count_eq_length]
    simp
  rw [key]
  exact and_congr hAny (and_congr
    (hcount1.trans (pairwise_eq_iff_eq_head DataFrame.len d0 rest).symm)
    (hcount2.trans (pairwise_eq_iff_eq_head (fun df => df.nullCount c) d0 rest).symm))


theorem is_stacking_possible_true_iff_witness :
    is_stacking_possible [dfW] "close" = some true := by
  refine (is_stacking_possible_true_iff [dfW] "close" (by simp)).mpr ⟨?_, ?_, ?_⟩ <;>
    simp [dfW, DataFrame.hasCol]

theorem any_nonpos_false_iff (l : List ℚ) :
    (l.any (fun x => decide (x ≤ 0)) = false) ↔ ∀ p ∈ l, 0 < p := by
  simp [not_le]

/-- C3: the return computation (per-series and batched) succeeds iff every
(non-missing) price is strictly positive: a non-positive price fails the
assert (modelled `none`) and is never coerced or skipped. -/
theorem return_computation_positivity (log : ℚ → ℚ) (df : DataFrame) (c : String)
    (dfs : List DataFrame) (P : List (List ℚ)) (ab : Bool) :
    ((calc_return_arr_from_df log df c).isSome = true ↔
      ∀ p ∈ dropna (df.getCol c), 0 < p) ∧
    (stack_dfs dfs c = some P →
      ((calc_return_arr_from_dfs log dfs c ab).isSome = true ↔
        ∀ row ∈ P, ∀ p ∈ row, 0 < p)) := by
  constructor
  · simp only [calc_return_arr_from_df]
    cases hany : (dropna (df.getCol c)).any (fun x => decide (x ≤ 0)) with
    | true =>
      simp only [hany, if_true, Option.isSome_none, Bool.false_eq_true, false_iff]
      simp only [List.any_eq_true, decide_eq_true_eq] at hany
      obtain ⟨x, hx, hxle⟩ := hany
      intro hall
      exact absurd (hall x hx) (not_lt.mpr hxle)
    | false =>
      simp only [hany, Bool.false_eq_true, if_false, Option.isSome_some, true_iff]
      exact (any_nonpos_false_iff _).mp hany
  · intro hP
    simp only [calc_return_arr_from_dfs, hP, Option.bind_eq_bind, Option.some_bind]
    cases hany : P.any (fun row => row.any (fun x => decide (x ≤ 0))) with
    | true =>
      simp only [hany, if_true, Option.isSome_none, Bool.false_eq_true, false_iff]
      simp only [List.any_eq_true, decide_eq_true_eq] at hany
      obtain ⟨row, hrow, x, hx, hxle⟩ := hany
      intro hall
      exact absurd (hall row hrow x hx) (not_lt.mpr hxle)
    | false =>
      simp only [hany, Bool.false_eq_true, if_false, Option.isSome_some, true_iff]
      intro row hrow
      rw [List.any_eq_false] at hany
      have := hany row hrow
      simp only [List.any_eq_true, decide_eq_true_eq, not_exists, not_and, not_le] at this
      exact this

/-- C6: whenever stacking is possible and all close prices are strictly
positive, the batched return array is exactly the list of per-series return
rows: its row i is the single row the per-series path computes for
sequence i (both compute log(p[t+1]/p[t] + 1e-10)). -/
theorem batched_returns_match_per_series (log : ℚ → ℚ) (dfs : List DataFrame)
    (P : List (List ℚ)) (hP : stack_dfs dfs "close" = some P)
    (hpos : ∀ df ∈ dfs, ∀ p ∈ dropna (df.getCol "close"), 0 < p) :
    calc_return_arr_from_dfs log dfs "close" false =
      some (dfs.map (fun df => log_returns log (dropna (df.getCol "close")))) ∧
    ∀ df ∈ dfs, calc_return_arr_from_df log df "close" =
      some [log_returns log (dropna (df.getCol "close"))] := by
  have hPeq : P = dfs.map (fun df => dropna (df.getCol "close")) := by
    simp only [stack_dfs] at hP
    by_cases hsp : is_stacking_possible dfs "close" = some true
    · rw [if_pos hsp] at hP
      cases hrows : dfs.map (fun df => dropna (df.getCol "close")) with
      | nil =>
        rw [hrows] at hP
        cases hP
      | cons r0 rt =>
        rw [hrows] at hP
        have hP' : (if ((r0 :: rt).all fun r => decide (r.length = r0.length)) = true
            then some (r0 :: rt) else none) = some P := hP
        split_ifs at hP'
        exact (Option.some.inj hP').symm
    · rw [if_neg hsp] at hP
      cases hP
  have hguard : P.any (fun row => row.any (fun x => decide (x ≤ 0))) = false := by
    rw [List.any_eq_false]
    intro row hrow
    rw [hPeq] at hrow
    obtain ⟨df, hdf, rfl⟩ := List.mem_map.mp hrow
    rw [Bool.not_eq_true, any_nonpos_false_iff]
    exact hpos df hdf
  constructor
  · simp only [calc_return_arr_from_dfs, hP, Option.bind_eq_bind, Option.some_bind,
      hguard, Bool.false_eq_true, if_false]
    rw [hPeq, List.map_map]
    simp [Function.comp]
  · intro df hdf
    have hfalse : (dropna (df.getCol "close")).any (fun x => decide (x ≤ 0)) = false :=
      (any_nonpos_false_iff _).mpr (hpos df hdf)
    simp only [calc_return_arr_from_df, hfalse, Bool.false_eq_true, if_false]



theorem return_computation_positivity_witness :
    (calc_return_arr_from_dfs (fun q => q) [dfA, dfB] "close" false).isSome = true := by
  refine ((return_computation_positivity (fun q => q) dfA "close" [dfA, dfB]
    [[1, 2], [2, 4]] false).2 rfl).mpr ?_
  intro row hrow p hp
  simp only [List.mem_cons, List.mem_singleton, List.not_mem_nil, or_false] at hrow
  rcases hrow with rfl | rfl <;>
    · simp only [List.mem_cons, List.mem_singleton, List.not_mem_nil, or_false] at hp
      rcases hp with rfl | rfl <;> norm_num

theorem batched_returns_match_per_series_witness :
    calc_return_arr_from_dfs (fun q => q) [dfA, dfB] "close" false =
      some ([dfA, dfB].map (fun df => log_returns (fun q => q)
        (dropna (df.getCol "close")))) := by
  refine (batched_returns_match_per_series (fun q => q) [dfA, dfB]
    [[1, 2], [2, 4]] rfl ?_).1
  intro df hdf p hp
  simp only [List.mem_cons, List.mem_singleton, List.not_mem_nil, or_false] at hdf
  rcases hdf with rfl | rfl <;>
    · simp only [dfA, dfB, DataFrame.getCol, dropna] at hp
      simp only [List.find?] at hp
      simp at hp
      rcases hp with rfl | rfl <;> norm_num

/-- C4: the low-level Hill routine rejects any 2-D input with a row that is
not ascending-sorted (ValueError), and on an ascending-sorted input whose
tail region (the top cut_off_th fraction) contains a value ≤ 0 it raises
the tail-region error (spec taxonomy: DataError) instead of computing an
index. -/
theorem hill_indices_error_checks (log : ℚ → ℚ) (arr : List (List ℚ)) (c : ℚ)
    (hrect : ∀ row ∈ arr, row.length = (arr.headD []).length) :
    ((∃ row ∈ arr, ¬ row.Sorted (· ≤ ·)) →
      calc_hill_indices log arr c = .error .notSorted) ∧
    ((∀ row ∈ arr, row.Sorted (· ≤ ·)) →
      (∃ row ∈ arr, ∃ x ∈ row.drop (hillCutStart arr c), x ≤ 0) →
      calc_hill_indices log arr c = .error .nonPositiveTail) := by
  constructor
  · rintro ⟨row, hrow, hns⟩
    have hne : row ≠ npSortRow row := by
      intro heq
      refine hns ?_
      rw [heq]
      exact List.sorted_insertionSort (· ≤ ·) row
    have hcond : arr.any (fun r => decide (r ≠ npSortRow r)) = true := by
      rw [List.any_eq_true]
      exact ⟨row, hrow, by simpa using hne⟩
    simp only [calc_hill_indices, hcond, if_true]
  · intro hsorted hbad
    obtain ⟨row, hrow, x, hx, hxle⟩ := hbad
    have hcond : arr.any (fun r => decide (r ≠ npSortRow r)) = false := by
      rw [List.any_eq_false]
      intro r hr
      have hs : npSortRow r = r := (hsorted r hr).insertionSort_eq
      simp [hs]
    have htail : (arr.map (fun row => row.drop (hillCutStart arr c))).any
        (fun row => row.any (fun x => decide (x ≤ 0))) = true := by
      rw [List.any_eq_true]
      refine ⟨row.drop (hillCutStart arr c), List.mem_map_of_mem _ hrow, ?_⟩
      rw [List.any_eq_true]
      exact ⟨x, hx, by simpa using hxle⟩
    simp only [calc_hill_indices, hcond, Bool.false_eq_true, if_false, htail, if_true]

theorem hill_indices_error_checks_witness :
    calc_hill_indices (fun q => q) [[2, 1]] (1/20) = .error .notSorted ∧
    calc_hill_indices (fun q => q) [[-1, 1]] (3/4) = .error .nonPositiveTail := by
  constructor
  · refine (hill_indices_error_checks (fun q => q) [[2, 1]] (1/20) ?_).1
      ⟨[2, 1], by simp, ?_⟩
    · intro row hrow
      simp only [List.mem_singleton] at hrow
      subst hrow
      rfl
    · intro hs
      rw [List.sorted_cons] at hs
      have := hs.1 1 (by simp)
      norm_num at this
  · refine (hill_indices_error_checks (fun q => q) [[-1, 1]] (3/4) ?_).2 ?_
      ⟨[-1, 1], by simp, -1, ?_, by norm_num⟩
    · intro row hrow
      simp only [List.mem_singleton] at hrow
      subst hrow
      rfl
    · intro row hrow
      simp only [List.mem_singleton] at hrow
      subst hrow
      rw [List.sorted_cons]
      constructor
      · intro b hb
        simp only [List.mem_singleton] at hb
        subst hb
        norm_num
      · simp
    · have hcut : hillCutStart [[-1, 1]] (3/4) = 0 := by
        unfold hillCutStart
        norm_num
      rw [hcut]
      simp


/-- C9: on a valid Hill input whose tail is strictly positive but constant
the per-row statistic (1/k)·Σ log(x/x_first) is zero (every ratio is 1 and
log 1 = 0), and the final reciprocal — which unlike the autocorrelation and
volume-volatility denominators has no ε floor — produces the non-finite
float 1/0 = inf (modelled `none`) instead of raising an error. -/
theorem hill_constant_tail_infinite (log : ℚ → ℚ) (hlog : log 1 = 0) :
    calc_hill_indices log hillConstTailArr (2/5) = .ok [none] := by
  have hsort : npSortRow [1, 2, 3, 4, 4] = [(1 : ℚ), 2, 3, 4, 4] := by
    norm_num [npSortRow, List.insertionSort, List.orderedInsert]
  have hcut : hillCutStart [[(1 : ℚ), 2, 3, 4, 4]] (2/5) = 3 := by
    unfold hillCutStart
    norm_num
    decide
  simp only [calc_hill_indices, hillConstTailArr, hcut]
  norm_num [hsort, hlog]

theorem hill_constant_tail_infinite_witness :
    calc_hill_indices (fun _ => 0) hillConstTailArr (2/5) = .ok [none] :=
  hill_constant_tail_infinite (fun _ => 0) rfl

theorem getCol_addDerivedCol_self (df : DataFrame) (n : String) (col : List NQ)
    (h : df.hasCol n = false) : (addDerivedCol df n col).getCol n = col := by
  have hnone : df.cols.find? (fun p => p.1 == n) = none := by
    rw [List.find?_eq_none]
    intro p hp
    simp only [DataFrame.hasCol] at h
    rw [List.any_eq_false] at h
    exact h p hp
  simp [DataFrame.getCol, addDerivedCol, List.find?_append, hnone]

theorem getCol_addDerivedCol_ne (df : DataFrame) (n m : String) (col : List NQ)
    (h : (n == m) = false) : (addDerivedCol df n col).getCol m = df.getCol m := by
  simp [DataFrame.getCol, addDerivedCol, List.find?_append, h]

theorem getCol_guard_add (df : DataFrame) (n m : String) (col : List NQ)
    (h : (n == m) = false) :
    (if df.hasCol n then df else addDerivedCol df n col).getCol m = df.getCol m := by
  split_ifs with hg
  · rfl
  · exact getCol_addDerivedCol_ne df n m col h

theorem dropna_scaleCol_eq (col : List NQ) :
    dropna (scaleCol col) = (dropna col).map (fun v => v / (dropna col).sum) := by
  unfold scaleCol
  generalize (dropna col).sum = s
  induction col with
  | nil => rfl
  | cons a t ih => cases a <;> simp [dropna, List.filterMap_cons] at ih ⊢ <;> simp [ih]

theorem sum_map_div (l : List ℚ) (s : ℚ) :
    (l.map (fun v => v / s)).sum = l.sum / s := by
  induction l with
  | nil => simp
  | cons a t ih => simp [ih, add_div]

theorem getCol_preprocess_scaled_volume (lower : String → String) (s1 s2 : Option ℚ)
    (df0 : DataFrame) (h : (lowercaseCols lower df0).hasCol "scaled_volume" = false) :
    (preprocess_ohlcv_df lower s1 s2 df0).getCol "scaled_volume" =
      scaleCol ((lowercaseCols lower df0).getCol "volume") := by
  simp only [preprocess_ohlcv_df, h, Bool.false_eq_true, if_false]
  cases s1 with
  | none =>
    cases s2 with
    | none =>
      rw [getCol_guard_add, getCol_addDerivedCol_self _ _ _ h]
      rfl
    | some t2 =>
      rw [getCol_guard_add, getCol_guard_add, getCol_guard_add,
        getCol_addDerivedCol_self _ _ _ h] <;> rfl
  | some t1 =>
    cases s2 with
    | none =>
      rw [getCol_guard_add, getCol_guard_add, getCol_guard_add,
        getCol_addDerivedCol_self _ _ _ h] <;> rfl
    | some t2 =>
      rw [getCol_guard_add, getCol_guard_add, getCol_guard_add, getCol_guard_add,
        getCol_guard_add, getCol_addDerivedCol_self _ _ _ h] <;> rfl

/-- C8: when a bar sequence does not already carry a scaled_volume column
and its total volume is strictly positive, the column-derivation pass adds
a scaled_volume column whose entries sum to exactly 1. -/
theorem scaled_volume_sums_to_one (lower : String → String) (s1 s2 : Option ℚ)
    (df0 : DataFrame)
    (habs : (lowercaseCols lower df0).hasCol "scaled_volume" = false)
    (hpos : 0 < (dropna ((lowercaseCols lower df0).getCol "volume")).sum) :
    (dropna ((preprocess_ohlcv_df lower s1 s2 df0).getCol "scaled_volume")).sum = 1 := by
  rw [getCol_preprocess_scaled_volume lower s1 s2 df0 habs, dropna_scaleCol_eq,
    sum_map_div, div_self (ne_of_gt hpos)]


theorem scaled_volume_sums_to_one_witness :
    (dropna ((preprocess_ohlcv_df (fun s => s) none none dfVol).getCol
      "scaled_volume")).sum = 1 := by
  refine scaled_volume_sums_to_one (fun s => s) none none dfVol rfl ?_
  norm_num [lowercaseCols, dfVol, DataFrame.getCol, dropna, List.find?,
    List.filterMap_cons]



/-- C2 (code bug): on a heterogeneous pair (homogeneity check false) every
estimator takes the per-series fallback, and kurtosis and autocorrelation
stack the scalars into shape (N, 1) = (2, [1, 1]); but the
volume-volatility fallback assembles `np.array(corrs)[np.newaxis, :]`, of
shape (1, N) = (1, [2]) — a single row, not the claimed (N, 1) column. -/
theorem vv_fallback_shape_is_one_by_n :
    is_stacking_possible [dfC3, dfC4] "close" = some false ∧
    (check_kurtosis (fun _ => 0) (fun _ => 0) (fun _ => 0) [dfC3, dfC4]).map
      (fun p => (shape2 p.1, shape2 p.2)) = some ((2, [1, 1]), (2, [1, 1])) ∧
    (check_autocorrelation (fun _ => 0) [dfC3, dfC4] [1]).map
      (List.map (fun p => (p.1, shape2 p.2))) = some [(1, (2, [1, 1]))] ∧
    (check_volume_volatility_correlation (fun _ => 0) (fun _ => 0) [dfC3, dfC4]).map
      shape2 = some (1, [2]) := by
  have h1 : is_stacking_possible [dfC3, dfC4] "close" = some false := by
    simp [is_stacking_possible, dfC3, dfC4, DataFrame.hasCol, DataFrame.len]
  have hr3 : calc_return_arr_from_df (fun _ => (0 : ℚ)) dfC3 "close" = some [[0, 0]] := by
    simp [calc_return_arr_from_df, dfC3, DataFrame.getCol, dropna, List.find?,
      List.filterMap_cons, log_returns]
  have hr4 : calc_return_arr_from_df (fun _ => (0 : ℚ)) dfC4 "close" =
      some [[0, 0, 0]] := by
    simp [calc_return_arr_from_df, dfC4, DataFrame.getCol, dropna, List.find?,
      List.filterMap_cons, log_returns]
  refine ⟨h1, ?_, ?_, ?_⟩
  · simp [check_kurtosis, h1, List.mapM.loop, hr3, hr4, calc_kurtosis, item2, shape2]
  · simp [check_autocorrelation, h1, List.mapM.loop, hr3, hr4, calc_autocorrelation,
      item2, shape2]
  · have hv3 : (dfC3.getCol "volume").drop 1 = [some 1, some 1] := by
      simp [dfC3, DataFrame.getCol, List.find?]
    have hv4 : (dfC4.getCol "volume").drop 1 = [some 1, some 1, some 1] := by
      simp [dfC4, DataFrame.getCol, List.find?]
    simp [check_volume_volatility_correlation, h1, List.mapM.loop, hr3, hr4, hv3, hv4,
      calc_volume_volatility_correlation, item2, shape2]
